import Mathlib

/-!
# go-gcsfs: a read-only `io/fs` adapter over a Cloud Storage bucket

Shallow embedding of `gcsfs.go` together with the standard-library functions
it calls (`fs.ValidPath`, `utf8.ValidString`, `path.Split`, `io.ReadAll`,
`time.Time.After`, `time.Time.Truncate`) and a deterministic test double of
the storage client.

Conventions
* a Go `string` / `[]byte` is a list of bytes; a byte is a `Nat` below 256;
* a Go `(value, error)` result is a pair of options, `none` standing for `nil`;
* every operation that talks to the storage client threads a `Trace`, the log
  of client calls made so far.
-/

set_option autoImplicit false

namespace Gcsfs

/-! ## Strings -/

/-- A byte of a Go string. -/
abbrev Byte := Nat

/-- A Go `string` (or `[]byte`): its bytes in order. -/
abbrev GoString := List Byte

/-- The bytes of an ASCII literal. -/
def str (s : String) : GoString := s.toList.map Char.toNat

/-- The byte `/`. -/
def slash : Byte := 47

/-- The string `"."`, the root of an `fs.FS`. -/
def dot : GoString := [46]

/-- The string `".."`. -/
def dotdot : GoString := [46, 46]

/-! ## `unicode/utf8` -/

/-- Entry of the table `first` of package `utf8` for a lead byte at or above
`RuneSelf`: the size of the encoding and the accepted range `lo..hi` of the
second byte (`acceptRanges`), or `none` for the entry `xx` (invalid). -/
def utf8First (b : Byte) : Option (Nat × Byte × Byte) :=
  if b < 0xC2 then none
  else if b < 0xE0 then some (2, 0x80, 0xBF)
  else if b = 0xE0 then some (3, 0xA0, 0xBF)
  else if b < 0xED then some (3, 0x80, 0xBF)
  else if b = 0xED then some (3, 0x80, 0x9F)
  else if b < 0xF0 then some (3, 0x80, 0xBF)
  else if b = 0xF0 then some (4, 0x90, 0xBF)
  else if b < 0xF4 then some (4, 0x80, 0xBF)
  else if b = 0xF4 then some (4, 0x80, 0x8F)
  else none

/-- Continuation byte test: `locb <= c && c <= hicb`. -/
def utf8Cont (c : Byte) : Bool := 0x80 ≤ c && c ≤ 0xBF

/-- Go `utf8.ValidString`: the string consists of well-formed UTF-8
sequences only. -/
def utf8ValidString : GoString → Bool
  | [] => true
  | b :: rest =>
    if b < 0x80 then utf8ValidString rest
    else
      match utf8First b, rest with
      | some (2, lo, hi), c1 :: r => (lo ≤ c1 && c1 ≤ hi) && utf8ValidString r
      | some (3, lo, hi), c1 :: c2 :: r =>
        (lo ≤ c1 && c1 ≤ hi) && utf8Cont c2 && utf8ValidString r
      | some (4, lo, hi), c1 :: c2 :: c3 :: r =>
        (lo ≤ c1 && c1 ≤ hi) && utf8Cont c2 && utf8Cont c3 && utf8ValidString r
      | _, _ => false

/-! ## `io/fs.ValidPath` -/

/-- Inner loop of `fs.ValidPath`,
`for i < len(name) && name[i] != '/' { i++ }`: the index of the first slash,
or the length when there is none. -/
def indexSlash : GoString → Nat
  | [] => 0
  | b :: rest => if b = slash then 0 else indexSlash rest + 1

/-- Outer loop of `fs.ValidPath`: check the element before the first slash,
then go on with what follows the slash. -/
def validPathLoop (name : GoString) : Bool :=
  let i := indexSlash name
  let elem := name.take i
  if elem = [] ∨ elem = dot ∨ elem = dotdot then false
  else if h : i = name.length then true
  else validPathLoop (name.drop (i + 1))
termination_by name.length
decreasing_by
  have hle : ∀ l : GoString, indexSlash l ≤ l.length := by
    intro l
    induction l with
    | nil => simp [indexSlash]
    | cons b rest ih =>
      simp only [indexSlash]
      split
      · simp
      · simp only [List.length_cons]; omega
  have := hle name
  simp only [List.length_drop]
  omega

/-- Go `fs.ValidPath`. -/
def validPath (name : GoString) : Bool :=
  if !utf8ValidString name then false
  else if name = dot then true
  else validPathLoop name

/-! ## `path.Split` -/

/-- Loop of `bytealg.LastIndexByteString`,
`for i := len(s) - 1; i >= 0; i--`, started with `i + 1` given. -/
def lastIndexByteFrom (s : GoString) (c : Byte) : Nat → Int
  | 0 => -1
  | i + 1 => if s[i]? = some c then (i : Int) else lastIndexByteFrom s c i

/-- Go `bytealg.LastIndexByteString`. -/
def lastIndexByte (s : GoString) (c : Byte) : Int :=
  lastIndexByteFrom s c s.length

/-- Go `path.Split`: `path[:i+1], path[i+1:]` with `i` the last slash. -/
def pathSplit (path : GoString) : GoString × GoString :=
  let i := lastIndexByte path slash
  (path.take (i + 1).toNat, path.drop (i + 1).toNat)

/-! ## `time` -/

/-- A Go `time.Time` as an instant: nanoseconds since the zero time
(January 1, year 1, 00:00 UTC). The zero `Time` is `⟨0⟩`. -/
structure Time where
  ns : Int
deriving DecidableEq, Repr

/-- Go `time.Second`, a `Duration` in nanoseconds. -/
def Second : Int := 1000000000

/-- Go `Time.After`: `t` is a later instant than `u`. -/
def Time.After (t u : Time) : Bool := decide (u.ns < t.ns)

/-- Go `Time.Truncate`: `t` rounded down to a multiple of `d` since the zero
time; `t` unchanged when `d <= 0`. -/
def Time.Truncate (t : Time) (d : Int) : Time :=
  if d ≤ 0 then t else ⟨t.ns - t.ns % d⟩

/-- Go `Time.Add`. -/
def Time.Add (t : Time) (d : Int) : Time := ⟨t.ns + d⟩

/-! ## `io/fs.FileMode` and errors -/

/-- Go `fs.FileMode`, a `uint32`. -/
abbrev FileMode := Nat

/-- Go `fs.ModeDir`, the bit `1 << 31`. -/
def ModeDir : FileMode := 2 ^ 31

/-- Go `FileMode.IsDir`: `m&ModeDir != 0`. -/
def FileMode.IsDir (m : FileMode) : Bool := m &&& ModeDir != 0

/-- The error values that occur. -/
inductive Error where
  /-- Value `fs.ErrInvalid`. -/
  | ErrInvalid
  /-- Value `io.EOF`. -/
  | EOF
  /-- Value `iterator.Done`. -/
  | Done
  /-- Value `storage.ErrObjectNotExist`. -/
  | ErrObjectNotExist
  /-- Value `storage.ErrBucketNotExist`. -/
  | ErrBucketNotExist
  /-- Any other failure of the backend or the transport. -/
  | Backend (code : Nat)
deriving DecidableEq, Repr

/-! ## The storage client (external collaborator) -/

/-- Package `storage`, `BucketAttrs`: the fields the adapter reads. -/
structure BucketAttrs where
  Name : GoString
  Created : Time
deriving DecidableEq, Repr

/-- Package `storage`, `ObjectAttrs`: the fields the adapter reads. -/
structure ObjectAttrs where
  Bucket : GoString
  Name : GoString
  Size : Int
  Created : Time
  Deleted : Time
  Updated : Time
deriving DecidableEq, Repr

/-- Package `storage`, `ReaderObjectAttrs`: the fields the adapter reads. -/
structure ReaderObjectAttrs where
  Size : Int
  LastModified : Time
deriving DecidableEq, Repr

/-- Package `storage`, `Reader`: the attributes captured when the stream was
opened and the bytes not yet read. -/
structure Reader where
  Attrs : ReaderObjectAttrs
  unread : List Byte
deriving DecidableEq, Repr

/-- Method `Read` of `storage.Reader` with a buffer of length `k`: end of
stream once nothing is left, otherwise the next bytes, at most `k`. -/
def Reader.Read (r : Reader) (k : Nat) : (List Byte × Option Error) × Reader :=
  if r.unread = [] then (([], some Error.EOF), r)
  else ((r.unread.take k, none), { r with unread := r.unread.drop k })

/-- Method `Close` of `storage.Reader`. -/
def Reader.Close (_r : Reader) : Option Error := none

/-- Package `storage`, `ObjectIterator`: the objects still to be yielded, the
error `Next` reports after them (`iterator.Done` for a clean end), and
`PageInfo().MaxSize`, an `int` that is never negative. -/
structure ObjectIterator where
  pending : List ObjectAttrs
  final : Error
  pageMaxSize : Nat
deriving DecidableEq, Repr

/-- Method `Next` of `storage.ObjectIterator`. -/
def ObjectIterator.Next (it : ObjectIterator) : Except Error ObjectAttrs × ObjectIterator :=
  match it.pending with
  | [] => (Except.error it.final, it)
  | attrs :: rest => (Except.ok attrs, { it with pending := rest })

/-- A deterministic double of `*storage.Client`: what the service answers to
each of the three requests the adapter makes. -/
structure Client where
  /-- Answer to `BucketHandle.Attrs` for a bucket name. -/
  bucketAttrs : GoString → Except Error BucketAttrs
  /-- Answer to `ObjectHandle.NewReader` for a bucket name and an object key. -/
  newReader : GoString → GoString → Except Error Reader
  /-- Enumeration started by `BucketHandle.Objects` for a bucket name. -/
  objects : GoString → ObjectIterator

/-- One call on the storage client or on a handle obtained from it. -/
inductive Call where
  | Bucket (bucket : GoString)
  | Object (bucket key : GoString)
  | NewReader (bucket key : GoString)
  | Objects (bucket : GoString)
  | Attrs (bucket : GoString)
deriving DecidableEq, Repr

/-- The calls made on the client so far, oldest first. -/
abbrev Trace := List Call

/-- Package `storage`, `BucketHandle`. -/
structure BucketHandle where
  client : Client
  name : GoString

/-- Package `storage`, `ObjectHandle`. -/
structure ObjectHandle where
  client : Client
  bucket : GoString
  object : GoString

/-- Method `Bucket` of `storage.Client`. -/
def Client.Bucket (c : Client) (name : GoString) (t : Trace) : BucketHandle × Trace :=
  (⟨c, name⟩, t ++ [Call.Bucket name])

/-- Method `Object` of `storage.BucketHandle`. -/
def BucketHandle.Object (b : BucketHandle) (key : GoString) (t : Trace) :
    ObjectHandle × Trace :=
  (⟨b.client, b.name, key⟩, t ++ [Call.Object b.name key])

/-- Method `NewReader` of `storage.ObjectHandle`. -/
def ObjectHandle.NewReader (o : ObjectHandle) (t : Trace) : Except Error Reader × Trace :=
  (o.client.newReader o.bucket o.object, t ++ [Call.NewReader o.bucket o.object])

/-- Method `Objects` of `storage.BucketHandle` (query `nil`). -/
def BucketHandle.Objects (b : BucketHandle) (t : Trace) : ObjectIterator × Trace :=
  (b.client.objects b.name, t ++ [Call.Objects b.name])

/-- Method `Attrs` of `storage.BucketHandle`. -/
def BucketHandle.Attrs (b : BucketHandle) (t : Trace) : Except Error BucketAttrs × Trace :=
  (b.client.bucketAttrs b.name, t ++ [Call.Attrs b.name])

/-! ### An in-memory server -/

/-- A stored object. -/
structure Object where
  Name : GoString
  Content : List Byte
  Created : Time
  Deleted : Time
  Updated : Time
deriving DecidableEq, Repr

/-- A bucket with its objects in listing order. -/
structure Bucket where
  Name : GoString
  Created : Time
  Objects : List Object
deriving DecidableEq, Repr

/-- The buckets of an in-memory storage server. -/
abbrev Server := List Bucket

/-- The bucket of that name, if any. -/
def Server.bucket (srv : Server) (name : GoString) : Option Bucket :=
  srv.find? (fun b => b.Name = name)

/-- The object stored under `key` in bucket `name`, if any. -/
def Server.object (srv : Server) (name key : GoString) : Option Object :=
  match srv.bucket name with
  | none => none
  | some b => b.Objects.find? (fun o => o.Name = key)

/-- Attributes the server lists for a stored object. -/
def Object.attrs (bucket : GoString) (o : Object) : ObjectAttrs :=
  { Bucket := bucket, Name := o.Name, Size := o.Content.length,
    Created := o.Created, Deleted := o.Deleted, Updated := o.Updated }

/-- The client of an in-memory server that never fails in transport: a
missing bucket or object is the only error. -/
def fakeClient (srv : Server) : Client where
  bucketAttrs name :=
    match srv.bucket name with
    | some b => Except.ok { Name := b.Name, Created := b.Created }
    | none => Except.error Error.ErrBucketNotExist
  newReader name key :=
    match srv.object name key with
    | some o =>
      Except.ok { Attrs := { Size := o.Content.length, LastModified := o.Updated },
                  unread := o.Content }
    | none => Except.error Error.ErrObjectNotExist
  objects name :=
    match srv.bucket name with
    | some b =>
      { pending := b.Objects.map (Object.attrs name), final := Error.Done, pageMaxSize := 0 }
    | none => { pending := [], final := Error.ErrBucketNotExist, pageMaxSize := 0 }

/-! ## `io.ReadAll` -/

/-- An `io.Reader` over a finite stream: `Read` with a buffer length, the
number of bytes not yet delivered, and the fact that a `Read` into a
non-empty buffer that reports no error delivers at least one byte. -/
structure IoReader (σ : Type) where
  Read : σ → Nat → (List Byte × Option Error) × σ
  unread : σ → Nat
  progress : ∀ s k, 0 < k → (Read s k).1.2 = none → unread (Read s k).2 < unread s

/-- Loop of Go `io.ReadAll`. `b` is the buffer filled so far and `spare` its
free capacity `cap(b) - len(b)`; a full buffer is grown first (by how much is
the runtime's choice, here `len(b) + 1`), then one `Read` into the free part
is appended. An error ends the loop, `io.EOF` being reported as `nil`. -/
def ioReadAllLoop {σ : Type} (R : IoReader σ) (s : σ) (b : List Byte) (spare : Nat) :
    (List Byte × Option Error) × σ :=
  let room := if spare = 0 then b.length + 1 else spare
  match _hread : R.Read s room with
  | ((p, none), s1) => ioReadAllLoop R s1 (b ++ p) (room - p.length)
  | ((p, some err), s1) => ((b ++ p, if err = Error.EOF then none else some err), s1)
termination_by R.unread s
decreasing_by
  have hroom : 0 < room := by
    show 0 < (if spare = 0 then b.length + 1 else spare)
    split <;> omega
  have hp := R.progress s room hroom (by rw [_hread])
  rw [_hread] at hp
  exact hp

/-- Go `io.ReadAll`: `b := make([]byte, 0, 512)`, then the loop. -/
def ioReadAll {σ : Type} (R : IoReader σ) (s : σ) : (List Byte × Option Error) × σ :=
  ioReadAllLoop R s [] 512

/-- The `io.Reader` that `*storage.Reader` is. -/
def readerIo : IoReader Reader where
  Read := Reader.Read
  unread r := r.unread.length
  progress r k hk h := by
    unfold Reader.Read at h ⊢
    by_cases hr : r.unread = []
    · simp [hr] at h
    · have : 0 < r.unread.length := List.length_pos.mpr hr
      simp only [hr, if_false, List.length_drop]
      omega

/-! ## `gcsfs.go`: metadata records -/

/-- Record `bucketFileInfo`. -/
structure bucketFileInfo where
  attrs : BucketAttrs
deriving DecidableEq, Repr

def bucketFileInfo.Name (fi : bucketFileInfo) : GoString := fi.attrs.Name

def bucketFileInfo.Size (_fi : bucketFileInfo) : Int := 0

def bucketFileInfo.Mode (_fi : bucketFileInfo) : FileMode := ModeDir

def bucketFileInfo.ModTime (fi : bucketFileInfo) : Time := fi.attrs.Created.Truncate Second

def bucketFileInfo.IsDir (_fi : bucketFileInfo) : Bool := true

def bucketFileInfo.Sys (fi : bucketFileInfo) : BucketAttrs := fi.attrs

/-- Record `readerObjectFileInfo`. -/
structure readerObjectFileInfo where
  attrs : ReaderObjectAttrs
  name : GoString
deriving DecidableEq, Repr

def readerObjectFileInfo.Name (fi : readerObjectFileInfo) : GoString := fi.name

def readerObjectFileInfo.Size (fi : readerObjectFileInfo) : Int := fi.attrs.Size

def readerObjectFileInfo.Mode (_fi : readerObjectFileInfo) : FileMode := 0

def readerObjectFileInfo.ModTime (fi : readerObjectFileInfo) : Time :=
  fi.attrs.LastModified.Truncate Second

def readerObjectFileInfo.IsDir (_fi : readerObjectFileInfo) : Bool := false

def readerObjectFileInfo.Sys (fi : readerObjectFileInfo) : ReaderObjectAttrs := fi.attrs

def readerObjectFileInfo.Type (_fi : readerObjectFileInfo) : FileMode := 0

/-- Record `objectFileInfo`. -/
structure objectFileInfo where
  attrs : ObjectAttrs
deriving DecidableEq, Repr

def objectFileInfo.Name (fi : objectFileInfo) : GoString :=
  (pathSplit fi.attrs.Name).2

def objectFileInfo.Size (fi : objectFileInfo) : Int := fi.attrs.Size

def objectFileInfo.Mode (_fi : objectFileInfo) : FileMode := 0

def objectFileInfo.ModTime (fi : objectFileInfo) : Time :=
  if fi.attrs.Deleted.After fi.attrs.Created then
    fi.attrs.Deleted.Truncate Second
  else
    fi.attrs.Created.Truncate Second

def objectFileInfo.IsDir (_fi : objectFileInfo) : Bool := false

def objectFileInfo.Sys (fi : objectFileInfo) : ObjectAttrs := fi.attrs

def objectFileInfo.Type (_fi : objectFileInfo) : FileMode := 0

/-- Interface `fs.FileInfo` with its three implementations. -/
inductive FileInfo where
  | bucket (fi : bucketFileInfo)
  | readerObject (fi : readerObjectFileInfo)
  | object (fi : objectFileInfo)
deriving DecidableEq, Repr

def FileInfo.Name : FileInfo → GoString
  | .bucket fi => fi.Name
  | .readerObject fi => fi.Name
  | .object fi => fi.Name

def FileInfo.Size : FileInfo → Int
  | .bucket fi => fi.Size
  | .readerObject fi => fi.Size
  | .object fi => fi.Size

def FileInfo.Mode : FileInfo → FileMode
  | .bucket fi => fi.Mode
  | .readerObject fi => fi.Mode
  | .object fi => fi.Mode

def FileInfo.ModTime : FileInfo → Time
  | .bucket fi => fi.ModTime
  | .readerObject fi => fi.ModTime
  | .object fi => fi.ModTime

def FileInfo.IsDir : FileInfo → Bool
  | .bucket fi => fi.IsDir
  | .readerObject fi => fi.IsDir
  | .object fi => fi.IsDir

/-- Interface `fs.DirEntry` with its two implementations. -/
inductive DirEntry where
  | readerObject (fi : readerObjectFileInfo)
  | object (fi : objectFileInfo)
deriving DecidableEq, Repr

def DirEntry.Name : DirEntry → GoString
  | .readerObject fi => fi.Name
  | .object fi => fi.Name

def DirEntry.IsDir : DirEntry → Bool
  | .readerObject fi => fi.IsDir
  | .object fi => fi.IsDir

def DirEntry.Type : DirEntry → FileMode
  | .readerObject fi => fi.Type
  | .object fi => fi.Type

/-- Methods `Info` of `readerObjectFileInfo` and `objectFileInfo`:
`return fi, nil`. -/
def DirEntry.Info : DirEntry → Option FileInfo × Option Error
  | .readerObject fi => (some (FileInfo.readerObject fi), none)
  | .object fi => (some (FileInfo.object fi), none)

/-! ## `gcsfs.go`: handles -/

/-- Handle `bucketFile`, the root directory. -/
structure bucketFile where
  handle : BucketHandle

/-- Handle `file`, an opened object. -/
structure file where
  reader : Reader
  name : GoString
deriving DecidableEq, Repr

/-- Interface `fs.File` with its two implementations. -/
inductive File where
  | bucketFile (f : bucketFile)
  | file (f : file)

/-- Statement `make([]fs.DirEntry, 0, size)`: an empty slice; `size` is its
capacity only. -/
def makeEntries (_size : Int) : List DirEntry := []

/-- The `for` loop of `bucketFile.ReadDir`: `Except.ok` is the `break` with
the entries collected, `Except.error` the early `return nil, err`. -/
def readDirLoop (iter : ObjectIterator) (entries : List DirEntry) :
    Except Error (List DirEntry) :=
  match _hnext : iter.Next with
  | (Except.error err, _) =>
    if err = Error.Done then Except.ok entries else Except.error err
  | (Except.ok attrs, iter1) =>
    readDirLoop iter1 (entries ++ [DirEntry.object { attrs := attrs }])
termination_by iter.pending.length
decreasing_by
  unfold ObjectIterator.Next at _hnext
  cases hp : iter.pending with
  | nil => simp [hp] at _hnext
  | cons a rest =>
    simp only [hp, Prod.mk.injEq, Except.ok.injEq] at _hnext
    rw [← _hnext.2]
    simp

/-- Method `bucketFile.ReadDir`. The handle is returned with the result: the
method has a pointer receiver. -/
def bucketFile.ReadDir (f : bucketFile) (n : Int) (t : Trace) :
    ((Option (List DirEntry) × Option Error) × bucketFile) × Trace :=
  let (iter, t1) := f.handle.Objects t
  let size : Int := if n ≤ 0 then (iter.pageMaxSize : Int) else n
  let entries := makeEntries size
  match readDirLoop iter entries with
  | Except.error err => (((none, some err), f), t1)
  | Except.ok entries =>
    if entries.length = 0 then (((some entries, some Error.EOF), f), t1)
    else (((some entries, none), f), t1)

/-- Method `bucketFile.Close`. -/
def bucketFile.Close (_f : bucketFile) : Option Error := none

/-- Method `bucketFile.Stat`. -/
def bucketFile.Stat (f : bucketFile) (t : Trace) : (Option FileInfo × Option Error) × Trace :=
  match f.handle.Attrs t with
  | (Except.error err, t1) => ((none, some err), t1)
  | (Except.ok attrs, t1) => ((some (FileInfo.bucket { attrs := attrs }), none), t1)

/-- Method `bucketFile.Read` with a buffer of length `k`: `return 0, nil`. -/
def bucketFile.Read (_f : bucketFile) (_k : Nat) : List Byte × Option Error := ([], none)

/-- Method `file.Stat`. -/
def file.Stat (f : file) : Option FileInfo × Option Error :=
  (some (FileInfo.readerObject { attrs := f.reader.Attrs, name := f.name }), none)

/-- Method `file.Read` with a buffer of length `k`. -/
def file.Read (f : file) (k : Nat) : (List Byte × Option Error) × file :=
  let (res, reader) := f.reader.Read k
  (res, { f with reader := reader })

/-- Method `file.Close`. -/
def file.Close (f : file) : Option Error := f.reader.Close

/-- The `io.Reader` that `*file` is. -/
def fileIo : IoReader file where
  Read := file.Read
  unread f := f.reader.unread.length
  progress f k hk h := readerIo.progress f.reader k hk h

/-! ## `gcsfs.go`: the filesystem -/

/-- Type `gcsFS`. The context field only travels to the client and is left
out. -/
structure gcsFS where
  client : Client
  bucketName : GoString

/-- Constructor `GcsFS`. -/
def GcsFS (c : Client) (bucketName : GoString) : Option gcsFS × Option Error :=
  (some { client := c, bucketName := bucketName }, none)

/-- Method `gcsFS.reader`. -/
def gcsFS.reader (f : gcsFS) (name : GoString) (t : Trace) : Except Error Reader × Trace :=
  let (b, t1) := f.client.Bucket f.bucketName t
  let (o, t2) := b.Object name t1
  o.NewReader t2

/-- Method `gcsFS.Open`. -/
def gcsFS.Open (f : gcsFS) (name : GoString) (t : Trace) :
    (Option File × Option Error) × Trace :=
  if !validPath name then ((none, some Error.ErrInvalid), t)
  else if name = dot then
    let (handle, t1) := f.client.Bucket f.bucketName t
    ((some (File.bucketFile { handle := handle }), none), t1)
  else
    match f.reader name t with
    | (Except.error err, t1) => ((none, some err), t1)
    | (Except.ok reader, t1) => ((some (File.file { reader := reader, name := name }), none), t1)

/-- Method `gcsFS.ReadFile`. -/
def gcsFS.ReadFile (f : gcsFS) (name : GoString) (t : Trace) :
    (Option (List Byte) × Option Error) × Trace :=
  match f.reader name t with
  | (Except.error err, t1) => ((none, some err), t1)
  | (Except.ok reader, t1) =>
    let (b, err) := (ioReadAll readerIo reader).1
    ((some b, err), t1)

/-- Interface method `fs.File.Stat`, dispatched on the handle. -/
def File.Stat (h : File) (t : Trace) : (Option FileInfo × Option Error) × Trace :=
  match h with
  | File.bucketFile d => d.Stat t
  | File.file f => (f.Stat, t)

/-- The handle `Open(".")` builds: `&bucketFile{handle: f.client.Bucket(f.bucketName)}`. -/
def gcsFS.rootDir (f : gcsFS) : bucketFile :=
  { handle := { client := f.client, name := f.bucketName } }

/-- A caller making the calls `ReadDir(n)` for the `n` of a list, in order,
on one handle: the results in order. -/
def readDirSeq (f : bucketFile) : List Int → Trace → List (Option (List DirEntry) × Option Error)
  | [], _ => []
  | n :: more, t =>
    match f.ReadDir n t with
    | ((res, f1), t1) => res :: readDirSeq f1 more t1

/-! ## The path grammar of the specification -/

/-- The slash-separated segments of a path, in order; the empty string has
the one segment `""`. -/
def segments : GoString → List GoString
  | [] => [[]]
  | b :: rest =>
    if b = slash then [] :: segments rest
    else
      match segments rest with
      | [] => [[b]]
      | seg :: more => (b :: seg) :: more

/-- An element `fs.ValidPath` lets pass: not `elem == "" || elem == "." ||
elem == ".."`. -/
def goodElem (elem : GoString) : Bool :=
  !(decide (elem = []) || decide (elem = dot) || decide (elem = dotdot))

/-- A path that fails the accepted grammar, in the words of the
specification: it is not the root marker `"."`, and it is empty, or starts or
ends with a slash, or has an empty segment or a segment `"."` or `".."`. -/
def failsPathGrammar (name : GoString) : Prop :=
  name ≠ dot ∧
    (name = [] ∨ name.head? = some slash ∨ name.getLast? = some slash ∨
      [] ∈ segments name ∨ dot ∈ segments name ∨ dotdot ∈ segments name)

instance (name : GoString) : Decidable (failsPathGrammar name) := by
  unfold failsPathGrammar
  infer_instance

/-! ## Sample servers -/

/-- The filesystem over an in-memory server. -/
def fakeFS (srv : Server) (bucketName : GoString) : gcsFS :=
  { client := fakeClient srv, bucketName := bucketName }

/-- An object created at nanosecond 1500000000 and never deleted. -/
def plainObject (key content : GoString) : Object :=
  { Name := key, Content := content, Created := ⟨1500000000⟩, Deleted := ⟨0⟩,
    Updated := ⟨1500000000⟩ }

/-- Bucket `"gcsfs"` holding object `"hello"` with content `"world"`. -/
def helloServer : Server :=
  [{ Name := str "gcsfs", Created := ⟨1000000000⟩,
     Objects := [plainObject (str "hello") (str "world")] }]

/-- Bucket `"gcsfs"` holding the objects `"a"` and `"b/c"`. -/
def abServer : Server :=
  [{ Name := str "gcsfs", Created := ⟨1000000000⟩,
     Objects := [plainObject (str "a") (str "1"), plainObject (str "b/c") (str "2")] }]

/-- Bucket `"gcsfs"` holding one object whose key `"dir/"` ends in a slash. -/
def dirServer : Server :=
  [{ Name := str "gcsfs", Created := ⟨1000000000⟩,
     Objects := [plainObject (str "dir/") []] }]

/-- Bucket `"gcsfs"` holding one object whose key `"/a"` starts with a slash. -/
def slashServer : Server :=
  [{ Name := str "gcsfs", Created := ⟨1000000000⟩,
     Objects := [plainObject (str "/a") (str "x")] }]

/-- Bucket `"gcsfs"` holding no object. -/
def emptyServer : Server :=
  [{ Name := str "gcsfs", Created := ⟨1000000000⟩, Objects := [] }]

/-- Bucket `"gcsfs"` holding object `"obj"` created at `c`, deleted at `d`
(the zero time when it was not) and last modified at `u`. -/
def timedServer (c d u : Time) : Server :=
  [{ Name := str "gcsfs", Created := ⟨1000000000⟩,
     Objects := [{ Name := str "obj", Content := str "x", Created := c,
                   Deleted := d, Updated := u }] }]

/-! ## Lemmas on the standard-library functions -/

/-- The inner loop of `fs.ValidPath` stops within the string. -/
theorem indexSlash_le (name : GoString) : indexSlash name ≤ name.length := by
  induction name with
  | nil => simp [indexSlash]
  | cons b rest ih =>
    simp only [indexSlash]
    split
    · simp
    · simp only [List.length_cons]; omega

/-- A path has at least one segment. -/
theorem segments_ne_nil (name : GoString) : segments name ≠ [] := by
  cases name with
  | nil => simp [segments]
  | cons b rest =>
    simp only [segments]
    split
    · simp
    · split <;> simp

/-- The first segment is what precedes the first slash; the others are the
segments of what follows it. -/
theorem segments_unfold (name : GoString) :
    segments name = name.take (indexSlash name) ::
      (if indexSlash name = name.length then [] else segments (name.drop (indexSlash name + 1))) := by
  induction name with
  | nil => simp [segments, indexSlash]
  | cons b rest ih =>
    by_cases hb : b = slash
    · simp [segments, indexSlash, hb]
    · simp only [segments, indexSlash, hb, if_false, List.take_succ_cons, List.length_cons,
        List.drop_succ_cons, add_left_inj]
      rw [ih]

/-- The loop of `fs.ValidPath` accepts a path exactly when every segment is a
good element. -/
theorem validPathLoop_eq (name : GoString) :
    validPathLoop name = (segments name).all goodElem := by
  generalize hn : name.length = n
  induction n using Nat.strong_induction_on generalizing name with
  | _ n ih =>
    subst hn
    rw [validPathLoop, segments_unfold]
    have hle := indexSlash_le name
    simp only [List.all_cons]
    by_cases hbad : name.take (indexSlash name) = [] ∨ name.take (indexSlash name) = dot ∨
        name.take (indexSlash name) = dotdot
    · have hg : goodElem (name.take (indexSlash name)) = false := by
        rcases hbad with h1 | h1 | h1 <;> simp [goodElem, h1]
      rw [if_pos hbad, hg, Bool.false_and]
    · have hg : goodElem (name.take (indexSlash name)) = true := by
        simp only [not_or] at hbad
        simp [goodElem, hbad.1, hbad.2.1, hbad.2.2]
      rw [if_neg hbad, hg, Bool.true_and]
      by_cases hi : indexSlash name = name.length
      · rw [dif_pos hi, if_pos hi, List.all_nil]
      · rw [dif_neg hi, if_neg hi]
        exact ih _ (by simp only [List.length_drop]; omega) _ rfl

/-- Closed form of `fs.ValidPath`: valid UTF-8 and either `"."` or every
segment is neither empty nor `"."` nor `".."`. -/
theorem validPath_eq (name : GoString) :
    validPath name =
      (utf8ValidString name && (decide (name = dot) || (segments name).all goodElem)) := by
  unfold validPath
  rw [validPathLoop_eq]
  cases utf8ValidString name <;> by_cases h : name = dot <;> simp [h]


/-- The backward scan returns `-1` when the byte does not occur below `i`,
and otherwise its last index below `i`. -/
theorem lastIndexByteFrom_spec (s : GoString) (c : Byte) (i : Nat) :
    (lastIndexByteFrom s c i = -1 ∧ ∀ j, j < i → s[j]? ≠ some c) ∨
    (∃ k, k < i ∧ lastIndexByteFrom s c i = (k : Int) ∧ s[k]? = some c ∧
      ∀ j, k < j → j < i → s[j]? ≠ some c) := by
  induction i with
  | zero => left; simp [lastIndexByteFrom]
  | succ i ih =>
    by_cases hc : s[i]? = some c
    · right
      refine ⟨i, Nat.lt_succ_self i, by simp [lastIndexByteFrom, hc], hc, ?_⟩
      intro j h1 h2; omega
    · simp only [lastIndexByteFrom, hc, if_false]
      rcases ih with ⟨h1, h2⟩ | ⟨k, hk, h1, h2, h3⟩
      · left
        refine ⟨h1, ?_⟩
        intro j hj
        by_cases hji : j = i
        · subst hji; exact hc
        · exact h2 j (by omega)
      · right
        refine ⟨k, by omega, h1, h2, ?_⟩
        intro j hkj hj
        by_cases hji : j = i
        · subst hji; exact hc
        · exact h3 j hkj (by omega)

/-- The two parts `path.Split` returns make up the path. -/
theorem pathSplit_append (p : GoString) : (pathSplit p).1 ++ (pathSplit p).2 = p := by
  simp [pathSplit]

/-- The file part `path.Split` returns has no slash. -/
theorem slash_not_mem_pathSplit_snd (p : GoString) : slash ∉ (pathSplit p).2 := by
  intro hmem
  obtain ⟨n, hn⟩ := List.mem_iff_getElem?.mp hmem
  simp only [pathSplit, List.getElem?_drop] at hn
  have hlen : (lastIndexByte p slash + 1).toNat + n < p.length := by
    by_contra hge
    have hlen2 : p.length ≤ (lastIndexByte p slash + 1).toNat + n := Nat.le_of_not_lt hge
    have hnone : p[(lastIndexByte p slash + 1).toNat + n]? = none :=
      List.getElem?_eq_none hlen2
    rw [hnone] at hn
    cases hn
  rcases lastIndexByteFrom_spec p slash p.length with ⟨h1, h2⟩ | ⟨k, hk, h1, h2, h3⟩
  · exact h2 _ hlen hn
  · have hk1 : (lastIndexByte p slash + 1).toNat = k + 1 := by
      unfold lastIndexByte; rw [h1]; omega
    rw [hk1] at hn hlen
    exact h3 _ (by omega) hlen hn

/-- The directory part `path.Split` returns is empty or ends in a slash. -/
theorem pathSplit_fst (p : GoString) :
    (pathSplit p).1 = [] ∨ (pathSplit p).1.getLast? = some slash := by
  rcases lastIndexByteFrom_spec p slash p.length with ⟨h1, h2⟩ | ⟨k, hk, h1, h2, h3⟩
  · left
    simp [pathSplit, lastIndexByte, h1]
  · right
    have hk1 : (lastIndexByte p slash + 1).toNat = k + 1 := by
      unfold lastIndexByte; rw [h1]; omega
    simp only [pathSplit, hk1]
    rw [List.getLast?_eq_getElem?, List.length_take]
    have hmin : min (k + 1) p.length - 1 = k := by omega
    rw [hmin]
    rw [List.getElem?_take, if_pos (Nat.lt_succ_self k)]
    exact h2

/-- Closed form of the loop of `ReadDir`: every pending object is appended,
unless the enumeration ends with an error other than `iterator.Done`. -/
theorem readDirLoop_eq (iter : ObjectIterator) (entries : List DirEntry) :
    readDirLoop iter entries =
      if iter.final = Error.Done then
        Except.ok (entries ++ iter.pending.map (fun attrs => DirEntry.object { attrs := attrs }))
      else Except.error iter.final := by
  obtain ⟨pending, final, pageMaxSize⟩ := iter
  induction pending generalizing entries with
  | nil =>
    rw [readDirLoop]
    simp [ObjectIterator.Next]
  | cons a rest ih =>
    rw [readDirLoop]
    simp only [ObjectIterator.Next]
    rw [ih]
    simp

/-- On a `storage.Reader` the loop of `io.ReadAll` appends all unread bytes. -/
theorem ioReadAllLoop_reader (r : Reader) (b : List Byte) (spare : Nat) :
    ioReadAllLoop readerIo r b spare = ((b ++ r.unread, none), { r with unread := [] }) := by
  generalize hn : r.unread.length = n
  induction n using Nat.strong_induction_on generalizing r b spare with
  | _ n ih =>
    subst hn
    rw [ioReadAllLoop]
    have hroom : 0 < (if spare = 0 then b.length + 1 else spare) := by split <;> omega
    generalize (if spare = 0 then b.length + 1 else spare) = room at hroom
    by_cases hr : r.unread = []
    · have hread : readerIo.Read r room = (([], some Error.EOF), r) := by
        simp [readerIo, Reader.Read, hr]
      split
      · rename_i p s1 h; rw [hread] at h; cases h
      · rename_i p err s1 h
        rw [hread] at h
        cases h
        cases r
        simp only at hr
        simp [hr]
    · have hread : readerIo.Read r room =
          ((r.unread.take room, none), { r with unread := r.unread.drop room }) := by
        simp [readerIo, Reader.Read, hr]
      have hpos : 0 < r.unread.length := List.length_pos.mpr hr
      split
      · rename_i p s1 h
        rw [hread] at h
        cases h
        rw [ih _ (by simp only [List.length_drop]; omega) _ _ _ rfl]
        simp
      · rename_i p err s1 h; rw [hread] at h; cases h

/-- On a `file` handle the loop of `io.ReadAll` appends all unread bytes. -/
theorem ioReadAllLoop_file (f : file) (b : List Byte) (spare : Nat) :
    ioReadAllLoop fileIo f b spare =
      ((b ++ f.reader.unread, none), { f with reader := { f.reader with unread := [] } }) := by
  generalize hn : f.reader.unread.length = n
  induction n using Nat.strong_induction_on generalizing f b spare with
  | _ n ih =>
    subst hn
    rw [ioReadAllLoop]
    have hroom : 0 < (if spare = 0 then b.length + 1 else spare) := by split <;> omega
    generalize (if spare = 0 then b.length + 1 else spare) = room at hroom
    by_cases hr : f.reader.unread = []
    · have hread : fileIo.Read f room = (([], some Error.EOF), f) := by
        simp [fileIo, file.Read, Reader.Read, hr]
      split
      · rename_i p s1 h; rw [hread] at h; cases h
      · rename_i p err s1 h
        rw [hread] at h
        cases h
        obtain ⟨⟨a, u⟩, nm⟩ := f
        simp only at hr
        simp [hr]
    · have hread : fileIo.Read f room =
          ((f.reader.unread.take room, none),
            { f with reader := { f.reader with unread := f.reader.unread.drop room } }) := by
        simp [fileIo, file.Read, Reader.Read, hr]
      have hpos : 0 < f.reader.unread.length := List.length_pos.mpr hr
      split
      · rename_i p s1 h
        rw [hread] at h
        cases h
        rw [ih _ (by simp only [List.length_drop]; omega) _ _ _ rfl]
        simp
      · rename_i p err s1 h; rw [hread] at h; cases h

/-- Result of `io.ReadAll` on a `storage.Reader`. -/
theorem ioReadAll_reader (r : Reader) :
    ioReadAll readerIo r = ((r.unread, none), { r with unread := [] }) := by
  simp [ioReadAll, ioReadAllLoop_reader]

/-- Result of `io.ReadAll` on a `file` handle. -/
theorem ioReadAll_file (f : file) :
    ioReadAll fileIo f =
      ((f.reader.unread, none), { f with reader := { f.reader with unread := [] } }) := by
  simp [ioReadAll, ioReadAllLoop_file]

/-! ## The path check of `Open` -/

/-- A trailing slash adds an empty last segment. -/
theorem segments_append_slash (xs : GoString) :
    segments (xs ++ [slash]) = segments xs ++ [[]] := by
  induction xs with
  | nil => simp [segments]
  | cons b rest ih =>
    by_cases hb : b = slash
    · simp [segments, hb, ih]
    · simp only [List.cons_append, segments, hb, if_false]
      show (match segments (rest ++ [slash]) with
        | [] => [[b]]
        | seg :: more => (b :: seg) :: more) = _
      rw [ih]
      cases hseg : segments rest with
      | nil => exact absurd hseg (segments_ne_nil rest)
      | cons seg more => simp

/-- A path that fails the grammar of the specification is rejected by
`fs.ValidPath`. -/
theorem validPath_of_failsPathGrammar (name : GoString) (h : failsPathGrammar name) :
    validPath name = false := by
  obtain ⟨hdot, hbad⟩ := h
  have hseg : ∃ seg ∈ segments name, goodElem seg = false := by
    rcases hbad with h1 | h1 | h1 | h1 | h1 | h1
    · subst h1; exact ⟨[], by simp [segments], by decide⟩
    · cases name with
      | nil => simp at h1
      | cons b rest =>
        simp only [List.head?_cons, Option.some.injEq] at h1
        exact ⟨[], by simp [segments, h1], by decide⟩
    · obtain ⟨xs, hxs⟩ : ∃ xs, name = xs ++ [slash] := by
        rcases List.eq_nil_or_concat name with hnil | ⟨xs, b, hb⟩
        · subst hnil; simp at h1
        · subst hb
          rw [List.concat_eq_append, List.getLast?_concat, Option.some.injEq] at h1
          exact ⟨xs, by rw [h1, List.concat_eq_append]⟩
      subst hxs
      exact ⟨[], by simp [segments_append_slash], by decide⟩
    · exact ⟨[], h1, by decide⟩
    · exact ⟨dot, h1, by decide⟩
    · exact ⟨dotdot, h1, by decide⟩
  obtain ⟨seg, hmem, hg⟩ := hseg
  rw [validPath_eq]
  have hall : (segments name).all goodElem = false := by
    rw [List.all_eq_false]
    exact ⟨seg, hmem, by simp [hg]⟩
  simp [hdot, hall]

/-- C1: every path that fails the accepted path grammar (empty, leading or
trailing slash, an empty segment, a `.` or `..` segment, the root marker `.`
apart), and more generally every path `fs.ValidPath` rejects, makes
`gcsFS.Open` return a nil handle with `fs.ErrInvalid`, the trace of client
calls being left as it was: no bucket handle, no object reader. -/
theorem open_rejects_invalid_path (f : gcsFS) (name : GoString) (t : Trace)
    (h : failsPathGrammar name ∨ validPath name = false) :
    f.Open name t = ((none, some Error.ErrInvalid), t) := by
  have hv : validPath name = false := by
    rcases h with h | h
    · exact validPath_of_failsPathGrammar name h
    · exact h
  simp [gcsFS.Open, hv]

/-- Instance: the path `"a//b"`, which has an empty segment. -/
theorem open_rejects_invalid_path_witness :
    failsPathGrammar (str "a//b") ∧
      (fakeFS helloServer (str "gcsfs")).Open (str "a//b") [] =
        ((none, some Error.ErrInvalid), []) :=
  ⟨by decide, open_rejects_invalid_path _ _ _ (Or.inl (by decide))⟩

/-! ## Opening and reading objects -/

/-- Method `gcsFS.reader`: the answer of the client and the three calls made. -/
theorem reader_eq (f : gcsFS) (name : GoString) (t : Trace) :
    f.reader name t =
      (f.client.newReader f.bucketName name,
        t ++ [Call.Bucket f.bucketName, Call.Object f.bucketName name,
          Call.NewReader f.bucketName name]) := by
  simp [gcsFS.reader, Client.Bucket, BucketHandle.Object, ObjectHandle.NewReader]

/-- Result of `Open` on a valid path other than the root. -/
theorem open_valid_eq (f : gcsFS) (name : GoString) (t : Trace)
    (hvalid : validPath name = true) (hroot : name ≠ dot) :
    (f.Open name t).1 =
      match f.client.newReader f.bucketName name with
      | Except.error err => (none, some err)
      | Except.ok reader => (some (File.file { reader := reader, name := name }), none) := by
  simp only [gcsFS.Open, hvalid, hroot, reader_eq, Bool.not_true, Bool.false_eq_true, if_false]
  cases f.client.newReader f.bucketName name <;> rfl

/-- Closed form of `ReadFile`: no path check, three client calls, then all
bytes of the reader. -/
theorem readFile_eq (f : gcsFS) (name : GoString) (t : Trace) :
    f.ReadFile name t =
      ((match f.client.newReader f.bucketName name with
        | Except.error err => (none, some err)
        | Except.ok reader => (some reader.unread, none)),
       t ++ [Call.Bucket f.bucketName, Call.Object f.bucketName name,
          Call.NewReader f.bucketName name]) := by
  simp only [gcsFS.ReadFile, reader_eq]
  cases f.client.newReader f.bucketName name with
  | error err => rfl
  | ok reader => simp [ioReadAll_reader]

/-- The in-memory server opens a reader on a stored object. -/
theorem fake_newReader (srv : Server) (bucket key : GoString) (o : Object)
    (hobj : srv.object bucket key = some o) :
    (fakeClient srv).newReader bucket key =
      Except.ok { Attrs := { Size := o.Content.length, LastModified := o.Updated },
                  unread := o.Content } := by
  simp [fakeClient, hobj]

/-- The in-memory server reports a missing object. -/
theorem fake_newReader_none (srv : Server) (bucket key : GoString)
    (hobj : srv.object bucket key = none) :
    (fakeClient srv).newReader bucket key = Except.error Error.ErrObjectNotExist := by
  simp [fakeClient, hobj]

/-- C2: for every valid non-root path bound to an object of the bucket,
`Open` succeeds with a file handle, reading that handle to completion yields
exactly the stored bytes, `Stat().Size()` on it is the number of stored bytes,
and `ReadFile` returns the same bytes with a nil error; so bucket `"gcsfs"`
with object `"hello"` = `"world"` gives the 5 bytes `"world"`. -/
theorem open_read_existing_object (srv : Server) (bucket p : GoString) (o : Object)
    (t : Trace) (hvalid : validPath p = true) (hroot : p ≠ dot)
    (hobj : srv.object bucket p = some o) :
    (∃ h : file,
      ((fakeFS srv bucket).Open p t).1 = (some (File.file h), none) ∧
      (ioReadAll fileIo h).1 = (o.Content, none) ∧
      h.Stat.1.map FileInfo.Size = some (o.Content.length : Int) ∧
      h.Stat.2 = none) ∧
    ((fakeFS srv bucket).ReadFile p t).1 = (some o.Content, none) ∧
    ((fakeFS helloServer (str "gcsfs")).ReadFile (str "hello") t).1 =
      (some (str "world"), none) := by
  refine ⟨⟨{ reader := { Attrs := { Size := o.Content.length, LastModified := o.Updated },
                         unread := o.Content }, name := p }, ?_, ?_, ?_, ?_⟩, ?_, ?_⟩
  · rw [open_valid_eq _ _ _ hvalid hroot]
    simp only [fakeFS, fake_newReader srv bucket p o hobj]
  · rw [ioReadAll_file]
  · simp [file.Stat, FileInfo.Size, readerObjectFileInfo.Size]
  · rfl
  · rw [readFile_eq]
    simp only [fakeFS, fake_newReader srv bucket p o hobj]
  · rw [readFile_eq]
    have hobj2 : helloServer.object (str "gcsfs") (str "hello") =
        some (plainObject (str "hello") (str "world")) := by decide
    simp only [fakeFS, fake_newReader _ _ _ _ hobj2]
    decide

/-- Instance: the path `"hello"` on the bucket holding `"hello"` = `"world"`. -/
theorem open_read_existing_object_witness :
    (validPath (str "hello") = true ∧ str "hello" ≠ dot ∧
      helloServer.object (str "gcsfs") (str "hello") =
        some (plainObject (str "hello") (str "world"))) ∧
    ((fakeFS helloServer (str "gcsfs")).ReadFile (str "hello") []).1 =
      (some (plainObject (str "hello") (str "world")).Content, none) :=
  ⟨⟨by rw [validPath_eq]; decide, by decide, by decide⟩,
    (open_read_existing_object helloServer (str "gcsfs") (str "hello")
      (plainObject (str "hello") (str "world")) []
      (by rw [validPath_eq]; decide) (by decide) (by decide)).2.1⟩

/-- C3: `ReadFile` does not have the failure modes of `Open` on invalid
paths. For `"../x"`, which `fs.ValidPath` rejects and `Open` answers with
`fs.ErrInvalid` without a client call, `ReadFile` asks the client for a bucket
handle, an object handle and a reader and reports the backend's
`storage.ErrObjectNotExist`; for `"/a"`, stored under that key, it returns
the content with a nil error. -/
theorem readFile_skips_path_check :
    validPath (str "../x") = false ∧
    (fakeFS helloServer (str "gcsfs")).Open (str "../x") [] =
      ((none, some Error.ErrInvalid), []) ∧
    (fakeFS helloServer (str "gcsfs")).ReadFile (str "../x") [] =
      ((none, some Error.ErrObjectNotExist),
        [Call.Bucket (str "gcsfs"), Call.Object (str "gcsfs") (str "../x"),
          Call.NewReader (str "gcsfs") (str "../x")]) ∧
    validPath (str "/a") = false ∧
    (fakeFS slashServer (str "gcsfs")).Open (str "/a") [] =
      ((none, some Error.ErrInvalid), []) ∧
    (fakeFS slashServer (str "gcsfs")).ReadFile (str "/a") [] =
      ((some (str "x"), none),
        [Call.Bucket (str "gcsfs"), Call.Object (str "gcsfs") (str "/a"),
          Call.NewReader (str "gcsfs") (str "/a")]) := by
  have h1 : validPath (str "../x") = false := by rw [validPath_eq]; decide
  have h2 : validPath (str "/a") = false := by rw [validPath_eq]; decide
  refine ⟨h1, ?_, ?_, h2, ?_, ?_⟩
  · simp [gcsFS.Open, h1]
  · rw [readFile_eq]
    have hnone : (fakeFS helloServer (str "gcsfs")).client.newReader
        (fakeFS helloServer (str "gcsfs")).bucketName (str "../x") =
        Except.error Error.ErrObjectNotExist :=
      fake_newReader_none _ _ _ (by decide)
    rw [hnone]
    rfl
  · simp [gcsFS.Open, h2]
  · rw [readFile_eq]
    have hsome := fake_newReader slashServer (str "gcsfs") (str "/a")
      (plainObject (str "/a") (str "x")) (by decide)
    show (match (fakeClient slashServer).newReader (str "gcsfs") (str "/a") with
      | Except.error err => (none, some err)
      | Except.ok reader => (some reader.unread, none), _) = _
    rw [hsome]
    rfl

/-! ## Listing the root -/

/-- The entries `ReadDir` builds from what the iterator yields. -/
theorem readDir_eq (f : bucketFile) (n : Int) (t : Trace) :
    f.ReadDir n t =
      (((if (f.handle.client.objects f.handle.name).final = Error.Done then
          (if (f.handle.client.objects f.handle.name).pending = [] then
            (some [], some Error.EOF)
          else
            (some ((f.handle.client.objects f.handle.name).pending.map
              (fun attrs => DirEntry.object { attrs := attrs })), none))
        else (none, some (f.handle.client.objects f.handle.name).final)), f),
       t ++ [Call.Objects f.handle.name]) := by
  simp only [bucketFile.ReadDir, BucketHandle.Objects, readDirLoop_eq, makeEntries,
    List.nil_append]
  by_cases hfinal : (f.handle.client.objects f.handle.name).final = Error.Done
  · by_cases hpend : (f.handle.client.objects f.handle.name).pending = []
    · simp [hfinal, hpend]
    · simp [hfinal, hpend]
  · simp [hfinal]

/-- The in-memory server enumerates the objects of an existing bucket. -/
theorem fake_objects (srv : Server) (name : GoString) (b : Bucket)
    (hb : srv.bucket name = some b) :
    (fakeClient srv).objects name =
      { pending := b.Objects.map (Object.attrs name), final := Error.Done, pageMaxSize := 0 } := by
  simp [fakeClient, hb]

/-- C4: `ReadDir(n)` does not stop at `n` entries. On the bucket holding `"a"`
and `"b/c"`, `ReadDir(1)` returns both entries with a nil error; and for any
handle the result is the same for every `n`. -/
theorem readDir_one_returns_two :
    (∃ entries,
      ((fakeFS abServer (str "gcsfs")).rootDir.ReadDir 1 []).1.1 = (some entries, none) ∧
      entries.length = 2 ∧ entries.map DirEntry.Name = [str "a", str "c"]) ∧
    ∀ (f : bucketFile) (n m : Int) (t : Trace), (f.ReadDir n t).1.1 = (f.ReadDir m t).1.1 := by
  constructor
  · have hobjs := fake_objects abServer (str "gcsfs") _ (by decide :
      abServer.bucket (str "gcsfs") = some
        { Name := str "gcsfs", Created := ⟨1000000000⟩,
          Objects := [plainObject (str "a") (str "1"), plainObject (str "b/c") (str "2")] })
    refine ⟨([plainObject (str "a") (str "1"), plainObject (str "b/c") (str "2")].map
      (Object.attrs (str "gcsfs"))).map (fun attrs => DirEntry.object { attrs := attrs }),
      ?_, ?_, ?_⟩
    · rw [readDir_eq]
      simp only [gcsFS.rootDir, fakeFS, hobjs]
      rfl
    · rfl
    · decide
  · intro f n m t
    rw [readDir_eq, readDir_eq]

/-- C5: when the enumeration ends without a backend error, `ReadDir(n)`, for
every `n`, returns a batch together with `io.EOF` exactly when the batch is
empty and with a nil error otherwise; with nothing to enumerate the batch is
empty and the error is `io.EOF`. -/
theorem readDir_eof_iff_empty (f : bucketFile) (n : Int) (t : Trace)
    (hclean : (f.handle.client.objects f.handle.name).final = Error.Done) :
    ∃ entries,
      (f.ReadDir n t).1.1.1 = some entries ∧
      ((f.ReadDir n t).1.1.2 = some Error.EOF ↔ entries = []) ∧
      (entries ≠ [] → (f.ReadDir n t).1.1.2 = none) ∧
      ((f.handle.client.objects f.handle.name).pending = [] →
        (f.ReadDir n t).1.1 = (some [], some Error.EOF)) := by
  rw [readDir_eq]
  by_cases hpend : (f.handle.client.objects f.handle.name).pending = []
  · exact ⟨[], by simp [hclean, hpend]⟩
  · refine ⟨(f.handle.client.objects f.handle.name).pending.map
      (fun attrs => DirEntry.object { attrs := attrs }), ?_⟩
    simp [hclean, hpend]

/-- Instance: the first listing of the bucket holding no object. -/
theorem readDir_eof_iff_empty_witness :
    ((fakeFS emptyServer (str "gcsfs")).rootDir.handle.client.objects
        (fakeFS emptyServer (str "gcsfs")).rootDir.handle.name).final = Error.Done ∧
    ((fakeFS emptyServer (str "gcsfs")).rootDir.ReadDir 0 []).1.1 =
      (some [], some Error.EOF) :=
  ⟨by decide, by
    obtain ⟨_, _, _, _, hempty⟩ :=
      readDir_eof_iff_empty (fakeFS emptyServer (str "gcsfs")).rootDir 0 [] (by decide)
    exact hempty (by decide)⟩

/-- Every call of a sequence returns what a first call returns. -/
theorem readDirSeq_eq (f : bucketFile) (ns : List Int) (t : Trace) :
    readDirSeq f ns t = ns.map (fun k => (f.ReadDir k t).1.1) := by
  induction ns generalizing t with
  | nil => rfl
  | cons n more ih =>
    have hread := readDir_eq f n t
    simp only [readDirSeq, List.map_cons]
    rw [hread]
    simp only [ih]
    congr 1
    apply List.map_congr_left
    intro k _
    rw [readDir_eq, readDir_eq]

/-- C10: `ReadDir` keeps no cursor. A call leaves the handle as it was, so
`ReadDir(m)` after `ReadDir(n)` on the same handle returns the entries and
error of a first `ReadDir(m)`, and so does every call of any sequence of
calls; hence when there is an object to enumerate and the enumeration does
not itself fail with `io.EOF`, no call of a sequence returns `io.EOF`. -/
theorem readDir_keeps_no_cursor (f : bucketFile) (n m : Int) (t : Trace) (ns : List Int) :
    (f.ReadDir n t).1.2 = f ∧
    ((f.ReadDir n t).1.2.ReadDir m (f.ReadDir n t).2).1.1 = (f.ReadDir m t).1.1 ∧
    readDirSeq f ns t = ns.map (fun k => (f.ReadDir k t).1.1) ∧
    ((f.handle.client.objects f.handle.name).pending ≠ [] →
      (f.handle.client.objects f.handle.name).final ≠ Error.EOF →
      ∀ r ∈ readDirSeq f ns t, r.2 ≠ some Error.EOF) := by
  have hsame : (f.ReadDir n t).1.2 = f := by rw [readDir_eq]
  refine ⟨hsame, ?_, readDirSeq_eq f ns t, ?_⟩
  · rw [hsame, readDir_eq f m (f.ReadDir n t).2, readDir_eq f m t]
  · intro hpend hfinal r hr
    rw [readDirSeq_eq] at hr
    obtain ⟨k, _, hk⟩ := List.mem_map.mp hr
    rw [← hk, readDir_eq]
    by_cases hdone : (f.handle.client.objects f.handle.name).final = Error.Done
    · simp [hdone, hpend]
    · simp only [hdone, if_false]
      intro heq
      exact hfinal (Option.some.inj heq)

/-- Instance: the calls `ReadDir(1)`, `ReadDir(-1)`, `ReadDir(0)` on the root of the
bucket holding `"a"` and `"b/c"`. -/
theorem readDir_keeps_no_cursor_witness :
    (((fakeFS abServer (str "gcsfs")).rootDir.handle.client.objects
        (fakeFS abServer (str "gcsfs")).rootDir.handle.name).pending ≠ [] ∧
      ((fakeFS abServer (str "gcsfs")).rootDir.handle.client.objects
        (fakeFS abServer (str "gcsfs")).rootDir.handle.name).final ≠ Error.EOF) ∧
    ∀ r ∈ readDirSeq (fakeFS abServer (str "gcsfs")).rootDir [1, -1, 0] [],
      r.2 ≠ some Error.EOF :=
  ⟨⟨by decide, by decide⟩,
    (readDir_keeps_no_cursor (fakeFS abServer (str "gcsfs")).rootDir 1 1 [] [1, -1, 0]).2.2.2
      (by decide) (by decide)⟩

/-! ## Names of metadata records -/

/-- The file part of a non-empty key that does not end in a slash is not empty. -/
theorem pathSplit_snd_ne_nil (p : GoString) (hne : p ≠ [])
    (hlast : p.getLast? ≠ some slash) : (pathSplit p).2 ≠ [] := by
  intro hnil
  have happ := pathSplit_append p
  rw [hnil, List.append_nil] at happ
  rcases pathSplit_fst p with h | h
  · rw [happ] at h; exact hne h
  · rw [happ] at h; exact hlast h

/-- The empty path is invalid. -/
theorem validPath_nil : validPath [] = false := by
  rw [validPath_eq]; decide

/-- Result of `Open(".")`: the root handle, after one `Bucket` call. -/
theorem open_dot (f : gcsFS) (t : Trace) :
    f.Open dot t = ((some (File.bucketFile f.rootDir), none), t ++ [Call.Bucket f.bucketName]) := by
  have hv : validPath dot = true := by rw [validPath_eq]; decide
  simp [gcsFS.Open, hv, Client.Bucket, gcsFS.rootDir]

/-- What a successful `Open` of a non-root path returns. -/
theorem open_some_inv (f : gcsFS) (p : GoString) (t : Trace) (h : File)
    (hroot : p ≠ dot) (hopen : (f.Open p t).1 = (some h, none)) :
    validPath p = true ∧ ∃ reader, h = File.file { reader := reader, name := p } := by
  cases hv : validPath p with
  | false => simp [gcsFS.Open, hv] at hopen
  | true =>
    refine ⟨rfl, ?_⟩
    rw [open_valid_eq f p t hv hroot] at hopen
    cases hr : f.client.newReader f.bucketName p with
    | error err => simp [hr] at hopen
    | ok reader =>
      simp only [hr, Prod.mk.injEq, Option.some.injEq, and_true] at hopen
      exact ⟨reader, hopen.symm⟩

/-- A bucket looked up by name has that name. -/
theorem fake_bucket_name (srv : Server) (name : GoString) (b : Bucket)
    (hb : srv.bucket name = some b) : b.Name = name := by
  have := List.find?_some hb
  simpa using this

/-- C6 as stated fails: the key `"dir/"` is not empty, and the listing entry
of the object stored under it has the empty name. -/
theorem listing_name_empty_for_slash_key :
    (∀ o ∈ [plainObject (str "dir/") []], o.Name ≠ []) ∧
    ∃ entries,
      ((fakeFS dirServer (str "gcsfs")).rootDir.ReadDir 0 []).1.1 = (some entries, none) ∧
      entries.map DirEntry.Name = [[]] := by
  refine ⟨by decide, ([plainObject (str "dir/") []].map
      (Object.attrs (str "gcsfs"))).map (fun attrs => DirEntry.object { attrs := attrs }),
      ?_, by decide⟩
  have hobjs := fake_objects dirServer (str "gcsfs") _ (by decide :
    dirServer.bucket (str "gcsfs") = some
      { Name := str "gcsfs", Created := ⟨1000000000⟩,
        Objects := [plainObject (str "dir/") []] })
  rw [readDir_eq]
  simp only [gcsFS.rootDir, fakeFS, hobjs]
  rfl

/-- C6, amended: on a bucket with a non-empty name whose object keys are
non-empty and do not end in a slash, the root handle (the one `Open(".")`
returns) has a `Stat` record with a non-empty name, every entry of a
`ReadDir` listing has a non-empty name, and so has the `Stat` record of every
successfully opened file. -/
theorem names_nonempty (srv : Server) (bucket : GoString) (b : Bucket) (n : Int)
    (t : Trace) (hb : srv.bucket bucket = some b) (hbucket : bucket ≠ [])
    (hkeys : ∀ o ∈ b.Objects, o.Name ≠ [] ∧ o.Name.getLast? ≠ some slash) :
    ((fakeFS srv bucket).Open dot t).1 =
      (some (File.bucketFile (fakeFS srv bucket).rootDir), none) ∧
    (∃ fi, ((fakeFS srv bucket).rootDir.Stat t).1 = (some fi, none) ∧ fi.Name ≠ []) ∧
    (∃ entries err,
      ((fakeFS srv bucket).rootDir.ReadDir n t).1.1 = (some entries, err) ∧
      entries.length = b.Objects.length ∧ ∀ e ∈ entries, e.Name ≠ []) ∧
    (∀ p h, ((fakeFS srv bucket).Open p t).1 = (some (File.file h), none) →
      ∃ fi, h.Stat = (some fi, none) ∧ fi.Name ≠ []) := by
  refine ⟨by rw [open_dot], ?_, ?_, ?_⟩
  · refine ⟨FileInfo.bucket { attrs := { Name := b.Name, Created := b.Created } }, ?_, ?_⟩
    · simp [bucketFile.Stat, BucketHandle.Attrs, gcsFS.rootDir, fakeFS, fakeClient, hb]
    · simp only [FileInfo.Name, bucketFileInfo.Name]
      rw [fake_bucket_name srv bucket b hb]
      exact hbucket
  · have hobjs := fake_objects srv bucket b hb
    refine ⟨(b.Objects.map (Object.attrs bucket)).map
      (fun attrs => DirEntry.object { attrs := attrs }), 
      if b.Objects = [] then some Error.EOF else none, ?_, by simp, ?_⟩
    · rw [readDir_eq]
      simp only [gcsFS.rootDir, fakeFS, hobjs]
      by_cases hnil : b.Objects = [] <;> simp [hnil]
    · intro e he
      simp only [List.map_map, List.mem_map, Function.comp] at he
      obtain ⟨o, ho, rfl⟩ := he
      exact pathSplit_snd_ne_nil o.Name (hkeys o ho).1 (hkeys o ho).2
  · intro p h hopen
    by_cases hroot : p = dot
    · subst hroot
      rw [open_dot] at hopen
      simp at hopen
    · obtain ⟨hv, reader, hfile⟩ := open_some_inv _ p t _ hroot hopen
      refine ⟨_, rfl, ?_⟩
      simp only [FileInfo.Name, readerObjectFileInfo.Name]
      cases hfile
      intro hnil
      simp only at hnil
      rw [hnil, validPath_nil] at hv
      cases hv

/-- Instance: the bucket `"gcsfs"` holding `"a"` and `"b/c"`. -/
theorem names_nonempty_witness :
    (abServer.bucket (str "gcsfs") = some
        { Name := str "gcsfs", Created := ⟨1000000000⟩,
          Objects := [plainObject (str "a") (str "1"), plainObject (str "b/c") (str "2")] } ∧
      str "gcsfs" ≠ [] ∧
      ∀ o ∈ [plainObject (str "a") (str "1"), plainObject (str "b/c") (str "2")],
        o.Name ≠ [] ∧ o.Name.getLast? ≠ some slash) ∧
    ∃ entries err,
      ((fakeFS abServer (str "gcsfs")).rootDir.ReadDir 0 []).1.1 = (some entries, err) ∧
      entries.length = 2 ∧ ∀ e ∈ entries, e.Name ≠ [] :=
  ⟨⟨by decide, by decide, by decide⟩,
    (names_nonempty abServer (str "gcsfs")
      { Name := str "gcsfs", Created := ⟨1000000000⟩,
        Objects := [plainObject (str "a") (str "1"), plainObject (str "b/c") (str "2")] }
      0 [] (by decide) (by decide) (by decide)).2.2.1⟩

/-- C7 as stated fails at the root path: `Open(".")` succeeds on bucket
`"gcsfs"`, and `Stat().Name()` on the handle is the bucket name `"gcsfs"`, not
the path `"."`. -/
theorem open_root_stat_name_is_bucket_name :
    ∃ h fi t1,
      (fakeFS helloServer (str "gcsfs")).Open dot [] = ((some h, none), t1) ∧
      (h.Stat t1).1 = (some fi, none) ∧
      fi.Name = str "gcsfs" ∧ fi.Name ≠ dot := by
  refine ⟨File.bucketFile (fakeFS helloServer (str "gcsfs")).rootDir,
    FileInfo.bucket { attrs := { Name := str "gcsfs", Created := ⟨1000000000⟩ } },
    [Call.Bucket (str "gcsfs")], ?_, ?_, rfl, by decide⟩
  · rw [open_dot]; rfl
  · have hb : helloServer.bucket (str "gcsfs") = some
        { Name := str "gcsfs", Created := ⟨1000000000⟩,
          Objects := [plainObject (str "hello") (str "world")] } := by decide
    simp [File.Stat, bucketFile.Stat, BucketHandle.Attrs, gcsFS.rootDir, fakeFS, fakeClient, hb]

/-- C7, amended: the `Name()` of the listing entry of an object with key `k`
is the last slash-separated segment of `k`: it contains no slash and `k` is a
prefix, empty or ending in a slash, followed by it, so the keys `"a"` and
`"b/c"` list as `"a"` and `"c"`; whereas for every path `p` other than the
root `"."` passed to a successful `Open`, `Stat()` on the handle succeeds and
its `Name()` is exactly `p`. -/
theorem name_asymmetry (k : ObjectAttrs) (f : gcsFS) (p : GoString) (t : Trace) (h : File)
    (hroot : p ≠ dot) (hopen : (f.Open p t).1 = (some h, none)) :
    (slash ∉ (DirEntry.object { attrs := k }).Name ∧
      ∃ pre, k.Name = pre ++ (DirEntry.object { attrs := k }).Name ∧
        (pre = [] ∨ pre.getLast? = some slash)) ∧
    (∃ entries,
      ((fakeFS abServer (str "gcsfs")).rootDir.ReadDir 0 []).1.1 = (some entries, none) ∧
      entries.map DirEntry.Name = [str "a", str "c"]) ∧
    (∀ t1, ∃ fi, (h.Stat t1).1 = (some fi, none) ∧ fi.Name = p) := by
  refine ⟨⟨slash_not_mem_pathSplit_snd k.Name, (pathSplit k.Name).1,
    (pathSplit_append k.Name).symm, pathSplit_fst k.Name⟩, ?_, ?_⟩
  · have hobjs := fake_objects abServer (str "gcsfs") _ (by decide :
      abServer.bucket (str "gcsfs") = some
        { Name := str "gcsfs", Created := ⟨1000000000⟩,
          Objects := [plainObject (str "a") (str "1"), plainObject (str "b/c") (str "2")] })
    refine ⟨([plainObject (str "a") (str "1"), plainObject (str "b/c") (str "2")].map
      (Object.attrs (str "gcsfs"))).map (fun attrs => DirEntry.object { attrs := attrs }),
      ?_, by decide⟩
    rw [readDir_eq]
    simp only [gcsFS.rootDir, fakeFS, hobjs]
    rfl
  · intro t1
    obtain ⟨_, reader, hfile⟩ := open_some_inv f p t h hroot hopen
    subst hfile
    exact ⟨_, rfl, rfl⟩

/-- Instance: the path `"hello"` opened on the bucket holding `"hello"` = `"world"`. -/
theorem name_asymmetry_witness :
    (str "hello" ≠ dot ∧
      ((fakeFS helloServer (str "gcsfs")).Open (str "hello") []).1 =
        (some (File.file
          { reader := { Attrs := { Size := 5, LastModified := ⟨1500000000⟩ },
                        unread := str "world" },
            name := str "hello" }), none)) ∧
    ∃ fi, ((File.file
          { reader := { Attrs := { Size := 5, LastModified := ⟨1500000000⟩ },
                        unread := str "world" },
            name := str "hello" }).Stat []).1 = (some fi, none) ∧
      fi.Name = str "hello" :=
  have hopen : ((fakeFS helloServer (str "gcsfs")).Open (str "hello") []).1 =
      (some (File.file
        { reader := { Attrs := { Size := 5, LastModified := ⟨1500000000⟩ },
                      unread := str "world" },
          name := str "hello" }), none) := by
    rw [open_valid_eq _ _ _ (by rw [validPath_eq]; decide) (by decide)]
    simp only [fakeFS, fake_newReader helloServer (str "gcsfs") (str "hello")
      (plainObject (str "hello") (str "world")) (by decide)]
    rfl
  ⟨⟨by decide, hopen⟩,
    (name_asymmetry
      { Bucket := str "gcsfs", Name := str "b/c", Size := 1, Created := ⟨0⟩, Deleted := ⟨0⟩,
        Updated := ⟨0⟩ }
      (fakeFS helloServer (str "gcsfs")) (str "hello") [] _ (by decide) hopen).2.2 []⟩

/-! ## Modification times -/

/-- A time truncated to the second has no sub-second part. -/
theorem truncate_second_ns (x : Time) : (x.Truncate Second).ns % 1000000000 = 0 := by
  simp only [Time.Truncate, Second]
  rw [if_neg (by decide)]
  show (x.ns - x.ns % 1000000000) % 1000000000 = 0
  omega

/-- Method `objectFileInfo.ModTime` as the later of the two times, truncated. -/
theorem objectFileInfo_modTime (ofi : objectFileInfo) :
    ofi.ModTime = Time.Truncate ⟨max ofi.attrs.Created.ns ofi.attrs.Deleted.ns⟩ Second := by
  unfold objectFileInfo.ModTime Time.After
  by_cases hlt : ofi.attrs.Created.ns < ofi.attrs.Deleted.ns
  · simp only [hlt, decide_True, if_true]
    rw [max_eq_right (le_of_lt hlt)]
  · simp only [hlt, decide_False, Bool.false_eq_true, if_false]
    rw [max_eq_left (le_of_not_lt hlt)]

/-- Listing of the one-object server `timedServer`. -/
theorem timedServer_listing (c d u : Time) (n : Int) (t : Trace) :
    ((fakeFS (timedServer c d u) (str "gcsfs")).rootDir.ReadDir n t).1.1 =
      (some [DirEntry.object { attrs :=
        { Bucket := str "gcsfs", Name := str "obj", Size := 1, Created := c, Deleted := d,
          Updated := u } }], none) := by
  have hb : (timedServer c d u).bucket (str "gcsfs") = some
      { Name := str "gcsfs", Created := ⟨1000000000⟩,
        Objects := [{ Name := str "obj", Content := str "x", Created := c,
                      Deleted := d, Updated := u }] } := by
    simp [timedServer, Server.bucket]
  rw [readDir_eq]
  simp only [gcsFS.rootDir, fakeFS, fake_objects _ _ _ hb]
  rfl

/-- Opening `"obj"` on the one-object server `timedServer`. -/
theorem timedServer_open (c d u : Time) (t : Trace) :
    ((fakeFS (timedServer c d u) (str "gcsfs")).Open (str "obj") t).1 =
      (some (File.file { reader := { Attrs := { Size := 1, LastModified := u },
                                     unread := str "x" },
                         name := str "obj" }), none) := by
  have hobj : (timedServer c d u).object (str "gcsfs") (str "obj") = some
      { Name := str "obj", Content := str "x", Created := c, Deleted := d, Updated := u } := by
    simp [timedServer, Server.bucket, Server.object]
  rw [open_valid_eq _ _ _ (by rw [validPath_eq]; decide) (by decide)]
  simp only [fakeFS, fake_newReader _ _ _ _ hobj]
  rfl

/-- Truncation to the second rounds down: the result is at most the time and
less than one second below it. -/
theorem truncate_second_floor (x : Time) :
    (x.Truncate Second).ns ≤ x.ns ∧ x.ns < (x.Truncate Second).ns + 1000000000 := by
  simp only [Time.Truncate, Second]
  rw [if_neg (by decide)]
  show x.ns - x.ns % 1000000000 ≤ x.ns ∧ x.ns < x.ns - x.ns % 1000000000 + 1000000000
  omega

/-- C8: the `ModTime()` of a listing entry is the later of the creation and
the deletion time of the object truncated down to a whole second: a multiple
of one second, at most that later time and less than one second below it, and
the truncated deletion time when that is after the creation time. The
`Stat().ModTime()` of an opened file is the last-modified time of the stream
truncated down to a whole second in the same sense, whatever the creation and
deletion times are. With creation at `t0`, deletion one second and last
modification two seconds later, the two are `t0 + 1s` and `t0 + 2s`
truncated; with creation at 1.2 s, deletion at 2.5 s and last modification at
3.7 s they are 2 s and 3 s. -/
theorem modTime_asymmetry (ofi : objectFileInfo) (f : file) (c d u t0 : Time) (n : Int)
    (t : Trace) :
    (ofi.ModTime = Time.Truncate ⟨max ofi.attrs.Created.ns ofi.attrs.Deleted.ns⟩ Second ∧
      ofi.ModTime.ns % 1000000000 = 0 ∧
      (ofi.attrs.Deleted.After ofi.attrs.Created = true →
        ofi.ModTime = ofi.attrs.Deleted.Truncate Second) ∧
      ofi.ModTime.ns ≤ max ofi.attrs.Created.ns ofi.attrs.Deleted.ns ∧
      max ofi.attrs.Created.ns ofi.attrs.Deleted.ns < ofi.ModTime.ns + 1000000000) ∧
    (∃ fi, f.Stat = (some fi, none) ∧
      fi.ModTime = f.reader.Attrs.LastModified.Truncate Second ∧
      fi.ModTime.ns % 1000000000 = 0 ∧
      fi.ModTime.ns ≤ f.reader.Attrs.LastModified.ns ∧
      f.reader.Attrs.LastModified.ns < fi.ModTime.ns + 1000000000) ∧
    (∃ e fi,
      ((fakeFS (timedServer c d u) (str "gcsfs")).rootDir.ReadDir n t).1.1 = (some [e], none) ∧
      e.Info = (some fi, none) ∧
      fi.ModTime = Time.Truncate ⟨max c.ns d.ns⟩ Second ∧
      fi.ModTime.ns % 1000000000 = 0 ∧
      fi.ModTime.ns ≤ max c.ns d.ns ∧ max c.ns d.ns < fi.ModTime.ns + 1000000000) ∧
    (∃ h fi,
      ((fakeFS (timedServer c d u) (str "gcsfs")).Open (str "obj") t).1 =
        (some (File.file h), none) ∧
      h.Stat = (some fi, none) ∧ fi.ModTime = u.Truncate Second ∧
      fi.ModTime.ns % 1000000000 = 0 ∧
      fi.ModTime.ns ≤ u.ns ∧ u.ns < fi.ModTime.ns + 1000000000) ∧
    (∃ e fi h hfi,
      ((fakeFS (timedServer t0 (t0.Add Second) (t0.Add (2 * Second)))
          (str "gcsfs")).rootDir.ReadDir n t).1.1 = (some [e], none) ∧
      e.Info = (some fi, none) ∧
      fi.ModTime = (t0.Add Second).Truncate Second ∧
      ((fakeFS (timedServer t0 (t0.Add Second) (t0.Add (2 * Second)))
          (str "gcsfs")).Open (str "obj") t).1 = (some (File.file h), none) ∧
      h.Stat = (some hfi, none) ∧
      hfi.ModTime = (t0.Add (2 * Second)).Truncate Second ∧
      (fi.ModTime.ns % 1000000000 = 0 ∧ fi.ModTime.ns ≤ t0.ns + 1000000000 ∧
        t0.ns + 1000000000 < fi.ModTime.ns + 1000000000) ∧
      (hfi.ModTime.ns % 1000000000 = 0 ∧ hfi.ModTime.ns ≤ t0.ns + 2000000000 ∧
        t0.ns + 2000000000 < hfi.ModTime.ns + 1000000000)) ∧
    (∃ e fi h hfi,
      ((fakeFS (timedServer ⟨1200000000⟩ ⟨2500000000⟩ ⟨3700000000⟩)
          (str "gcsfs")).rootDir.ReadDir n t).1.1 = (some [e], none) ∧
      e.Info = (some fi, none) ∧
      fi.ModTime = ⟨2000000000⟩ ∧
      ((fakeFS (timedServer ⟨1200000000⟩ ⟨2500000000⟩ ⟨3700000000⟩)
          (str "gcsfs")).Open (str "obj") t).1 = (some (File.file h), none) ∧
      h.Stat = (some hfi, none) ∧
      hfi.ModTime = ⟨3000000000⟩) := by
  have hofi := objectFileInfo_modTime ofi
  have hlisted := objectFileInfo_modTime
    { attrs := { Bucket := str "gcsfs", Name := str "obj", Size := 1, Created := c,
                 Deleted := d, Updated := u } }
  have hexample : objectFileInfo.ModTime
      { attrs := { Bucket := str "gcsfs", Name := str "obj", Size := 1, Created := t0,
                   Deleted := t0.Add Second, Updated := t0.Add (2 * Second) } } =
      (t0.Add Second).Truncate Second := by
    have hafter : (t0.Add Second).After t0 = true := by
      simp [Time.After, Time.Add, Second]
    simp [objectFileInfo.ModTime, hafter]
  have hone := truncate_second_floor (t0.Add Second)
  have htwo := truncate_second_floor (t0.Add (2 * Second))
  refine ⟨⟨hofi, ?_, ?_, ?_, ?_⟩,
    ⟨_, rfl, rfl, truncate_second_ns _, (truncate_second_floor _).1,
      (truncate_second_floor _).2⟩,
    ⟨_, _, timedServer_listing c d u n t, rfl, hlisted, ?_, ?_, ?_⟩,
    ⟨_, _, timedServer_open c d u t, rfl, rfl, truncate_second_ns _,
      (truncate_second_floor _).1, (truncate_second_floor _).2⟩,
    ⟨_, _, _, _, timedServer_listing _ _ _ n t, rfl, hexample, timedServer_open _ _ _ t,
      rfl, rfl, ⟨?_, ?_, ?_⟩, ⟨truncate_second_ns _, ?_, ?_⟩⟩,
    ⟨_, _, _, _, timedServer_listing _ _ _ n t, rfl, by decide, timedServer_open _ _ _ t,
      rfl, by decide⟩⟩
  · rw [hofi]; exact truncate_second_ns _
  · intro hafter
    simp [objectFileInfo.ModTime, hafter]
  · rw [hofi]; exact (truncate_second_floor _).1
  · rw [hofi]; exact (truncate_second_floor _).2
  · show (objectFileInfo.ModTime _).ns % 1000000000 = 0
    rw [hlisted]; exact truncate_second_ns _
  · show (objectFileInfo.ModTime _).ns ≤ _
    rw [hlisted]; exact (truncate_second_floor _).1
  · show _ < (objectFileInfo.ModTime _).ns + 1000000000
    rw [hlisted]; exact (truncate_second_floor _).2
  · show (objectFileInfo.ModTime _).ns % 1000000000 = 0
    rw [hexample]; exact truncate_second_ns _
  · show (objectFileInfo.ModTime _).ns ≤ _
    rw [hexample]
    have := hone.1
    simpa [Time.Add, Second] using this
  · show _ < (objectFileInfo.ModTime _).ns + 1000000000
    rw [hexample]
    have := hone.2
    simpa [Time.Add, Second] using this
  · have := htwo.1
    simpa [Time.Add, Second, FileInfo.ModTime, readerObjectFileInfo.ModTime] using this
  · have := htwo.2
    simpa [Time.Add, Second, FileInfo.ModTime, readerObjectFileInfo.ModTime] using this

/-- Instance: an object created at 1.2 s, deleted at 2.5 s and modified at 3.7 s
after the zero time lists with the modification time 2 s. -/
theorem modTime_asymmetry_witness :
    Time.After ⟨2500000000⟩ ⟨1200000000⟩ = true ∧
    objectFileInfo.ModTime { attrs :=
      { Bucket := str "gcsfs", Name := str "obj", Size := 1, Created := ⟨1200000000⟩,
        Deleted := ⟨2500000000⟩, Updated := ⟨3700000000⟩ } } = ⟨2000000000⟩ :=
  ⟨by decide,
    ((modTime_asymmetry
      { attrs := { Bucket := str "gcsfs", Name := str "obj", Size := 1,
                   Created := ⟨1200000000⟩, Deleted := ⟨2500000000⟩,
                   Updated := ⟨3700000000⟩ } }
      { reader := { Attrs := { Size := 1, LastModified := ⟨3700000000⟩ }, unread := str "x" },
        name := str "obj" }
      ⟨0⟩ ⟨0⟩ ⟨0⟩ ⟨0⟩ 0 []).1.2.2.1 (by decide)).trans (by decide)⟩

/-! ## The directory flag -/

/-- Every entry `ReadDir` returns is an `objectFileInfo`. -/
theorem readDir_entries_object (d : bucketFile) (n : Int) (t : Trace) (es : List DirEntry)
    (hes : (d.ReadDir n t).1.1.1 = some es) :
    ∀ e ∈ es, ∃ ofi, e = DirEntry.object ofi := by
  rw [readDir_eq] at hes
  intro e he
  by_cases hfinal : (d.handle.client.objects d.handle.name).final = Error.Done
  · by_cases hpend : (d.handle.client.objects d.handle.name).pending = []
    · simp only [hfinal, hpend, if_true, Option.some.injEq] at hes
      subst hes
      cases he
    · simp only [hfinal, hpend, if_true, if_false, Option.some.injEq] at hes
      subst hes
      obtain ⟨attrs, _, rfl⟩ := List.mem_map.mp he
      exact ⟨_, rfl⟩
  · simp [hfinal] at hes

/-- C9: the metadata record of the root has `IsDir() = true`,
`Mode() = fs.ModeDir` and `Size() = 0`; every listing entry and the `Stat`
record of every opened file has `IsDir() = false`, `Mode() = 0` and
`Type() = 0`; and for every record `IsDir()` is the directory bit of
`Mode()`. -/
theorem directory_flag (bfi : bucketFileInfo) (rfi : readerObjectFileInfo)
    (ofi : objectFileInfo) (fi : FileInfo) (d : bucketFile) (f : file) (n : Int) (t : Trace) :
    (bfi.IsDir = true ∧ bfi.Mode = ModeDir ∧ bfi.Size = 0) ∧
    (rfi.IsDir = false ∧ rfi.Mode = 0 ∧ rfi.Type = 0) ∧
    (ofi.IsDir = false ∧ ofi.Mode = 0 ∧ ofi.Type = 0) ∧
    fi.IsDir = fi.Mode.IsDir ∧
    (∀ x, (d.Stat t).1.1 = some x →
      x.IsDir = true ∧ x.Mode = ModeDir ∧ x.Size = 0) ∧
    (∃ x, f.Stat = (some x, none) ∧ x.IsDir = false ∧ x.Mode = 0) ∧
    (∀ es, (d.ReadDir n t).1.1.1 = some es → ∀ e ∈ es,
      e.IsDir = false ∧ e.Type = 0 ∧
        ∃ x, e.Info = (some x, none) ∧ x.IsDir = false ∧ x.Mode = 0) := by
  refine ⟨⟨rfl, rfl, rfl⟩, ⟨rfl, rfl, rfl⟩, ⟨rfl, rfl, rfl⟩, ?_, ?_, ⟨_, rfl, rfl, rfl⟩, ?_⟩
  · have hdir : FileMode.IsDir ModeDir = true := by decide
    have hreg : FileMode.IsDir 0 = false := by decide
    cases fi with
    | bucket x => exact hdir.symm
    | readerObject x => exact hreg.symm
    | object x => exact hreg.symm
  · intro x hx
    simp only [bucketFile.Stat, BucketHandle.Attrs] at hx
    cases hattrs : d.handle.client.bucketAttrs d.handle.name with
    | error err => simp [hattrs] at hx
    | ok attrs =>
      simp only [hattrs, Option.some.injEq] at hx
      subst hx
      exact ⟨rfl, rfl, rfl⟩
  · intro es hes e he
    obtain ⟨ofi1, rfl⟩ := readDir_entries_object d n t es hes e he
    exact ⟨rfl, rfl, _, rfl, rfl, rfl⟩

/-- Instance: the `Stat` record of the root of bucket `"gcsfs"`. -/
theorem directory_flag_witness :
    ((fakeFS helloServer (str "gcsfs")).rootDir.Stat []).1.1 =
      some (FileInfo.bucket { attrs := { Name := str "gcsfs", Created := ⟨1000000000⟩ } }) ∧
    (FileInfo.bucket { attrs := { Name := str "gcsfs", Created := ⟨1000000000⟩ } }).IsDir = true ∧
    (FileInfo.bucket { attrs := { Name := str "gcsfs", Created := ⟨1000000000⟩ } }).Mode =
      ModeDir ∧
    (FileInfo.bucket { attrs := { Name := str "gcsfs", Created := ⟨1000000000⟩ } }).Size = 0 :=
  have hstat : ((fakeFS helloServer (str "gcsfs")).rootDir.Stat []).1.1 =
      some (FileInfo.bucket { attrs := { Name := str "gcsfs", Created := ⟨1000000000⟩ } }) := by
    have hb : helloServer.bucket (str "gcsfs") = some
        { Name := str "gcsfs", Created := ⟨1000000000⟩,
          Objects := [plainObject (str "hello") (str "world")] } := by decide
    simp [bucketFile.Stat, BucketHandle.Attrs, gcsFS.rootDir, fakeFS, fakeClient, hb]
  ⟨hstat,
    (directory_flag { attrs := { Name := str "gcsfs", Created := ⟨1000000000⟩ } }
      { attrs := { Size := 5, LastModified := ⟨1500000000⟩ }, name := str "hello" }
      { attrs := { Bucket := str "gcsfs", Name := str "hello", Size := 5,
                   Created := ⟨1500000000⟩, Deleted := ⟨0⟩, Updated := ⟨1500000000⟩ } }
      (FileInfo.bucket { attrs := { Name := str "gcsfs", Created := ⟨1000000000⟩ } })
      (fakeFS helloServer (str "gcsfs")).rootDir
      { reader := { Attrs := { Size := 5, LastModified := ⟨1500000000⟩ },
                    unread := str "world" }, name := str "hello" }
      0 []).2.2.2.2.1 _ hstat⟩

end Gcsfs
